import Mathlib

/-!
Shallow embedding of the `dmweb` package of the go-ewon repository
(`dmweb.go`, `types.go`): a client for the Talk2M DataMailbox HTTP API.

Modelling conventions:
* Go strings are `String`; Go `int` is `Int` (overflow is irrelevant here:
  no arithmetic is performed on these values); Go `float64` is `ℚ`
  (only decoding behaviour matters, never rounding).
* JSON documents are the inductive `Json`; a response body is a `Json`
  value.  A decode error is a shape mismatch; decoding is modelled
  atomically (`Option`): on failure Go leaves a partially written struct
  behind the returned pointer, the model returns the Go zero value, and
  theorems about failure paths use only that the pointer is non-nil.
  The one place where the partially decoded value itself is observable —
  the slice returned by `GetEwons` — additionally gets a best-effort
  decode pass (`bestEffortGetEwonsEnvelope`) mirroring `encoding/json`'s
  documented skip-and-continue behaviour on type mismatches.
* `time.Time` fields are `GoTime`, carrying the raw RFC-3339 text; the
  zero value has empty text.  Validation of the text by `time.Time`'s
  unmarshaller is abstracted away (no claim depends on it).
* The injected `*http.Client` (`c.Client.Do`) is a `Transport` function
  argument; effects are made explicit as a trace of `Event`s: every
  issued HTTP GET (with its URL and User-Agent header) and every call
  to `Body.Close` would appear there.  The source never calls
  `res.Body.Close()`, so no operation ever emits `Event.closeBody`.
-/

namespace Dmweb

/-- A JSON document.  Numbers are rationals, so integral and fractional
numeric literals are distinguished the way `encoding/json` distinguishes
them when decoding into `int` versus `float64` fields. -/
inductive Json where
  | null : Json
  | bool (b : Bool) : Json
  | num (q : ℚ) : Json
  | str (s : String) : Json
  | arr (elems : List Json) : Json
  | obj (fields : List (String × Json)) : Json

/-- `time.Time` modelled as its RFC-3339 text; the zero time has empty text. -/
structure GoTime where
  raw : String
deriving DecidableEq, Repr

/-- The zero `time.Time`. -/
def GoTime.zero : GoTime := ⟨""⟩

/-- `url.Values` (`map[string][]string`), as an association list with
per-key value slices.  Keys are unique when built by `add` from `[]`. -/
abbrev URLValues : Type := List (String × List String)

/-- `url.Values.Add`: append the value to the key's slice
(`v[key] = append(v[key], value)`), creating the key if absent. -/
def URLValues.add : URLValues → String → String → URLValues
  | [], k, val => [(k, [val])]
  | (k', vs) :: rest, k, val =>
    if k' = k then (k', vs ++ [val]) :: rest
    else (k', vs) :: URLValues.add rest k val

/-- The value slice stored under a key (first entry wins, as in a map). -/
def URLValues.get : URLValues → String → List String
  | [], _ => []
  | (k', vs) :: rest, k => if k' = k then vs else URLValues.get rest k

/-- One hexadecimal digit, upper case, as used by `url.QueryEscape`. -/
def hexUpper (n : Nat) : Char :=
  if n < 10 then Char.ofNat (48 + n) else Char.ofNat (55 + n)

/-- `url.QueryEscape` on a single byte: alphanumerics and `-_.~` are kept,
a space becomes `+`, every other byte becomes `%XX`. -/
def escapeByte (b : UInt8) : String :=
  let n := b.toNat
  let c := Char.ofNat n
  if (65 ≤ n ∧ n ≤ 90) ∨ (97 ≤ n ∧ n ≤ 122) ∨ (48 ≤ n ∧ n ≤ 57)
      ∨ c = '-' ∨ c = '_' ∨ c = '.' ∨ c = '~' then
    String.singleton c
  else if c = ' ' then "+"
  else String.singleton '%' ++ String.singleton (hexUpper (n / 16))
    ++ String.singleton (hexUpper (n % 16))

/-- `url.QueryEscape`, applied byte-wise to the UTF-8 encoding. -/
def queryEscape (s : String) : String :=
  String.join (s.toUTF8.toList.map escapeByte)

/-- `url.Values.Encode`: keys sorted, each `k=v` pair escaped and the
pairs joined with `&`. -/
def URLValues.encode (v : URLValues) : String :=
  let keys := (v.map Prod.fst).mergeSort (fun a b => a ≤ b)
  String.intercalate "&"
    (keys.flatMap fun k =>
      (URLValues.get v k).map fun val => queryEscape k ++ "=" ++ queryEscape val)

/-- `DefaultBaseURL` is the default URL to access the EWON service. -/
def DefaultBaseURL : String := "https://data.talk2m.com/"

/-- `DefaultUserAgent` is this package's default User-Agent. -/
def DefaultUserAgent : String := "go-ewon/dmweb 0.1"

/-- The errors a `dmweb` call can produce.  `errorsNew msg` is a value
built by `errors.New(msg)` — it carries nothing but its text;
`decodeFailure` is an error from `json.Decoder.Decode` (its text is
not tracked by the model); `transport msg` is an error returned by
`c.Client.Do`. -/
inductive DMError where
  | missingCredentials : DMError
  | couldNotParseArgument : DMError
  | transport (msg : String) : DMError
  | errorsNew (msg : String) : DMError
  | decodeFailure : DMError
deriving DecidableEq, Repr

/-- The user-visible text of an error (`err.Error()` in Go).  The model
does not track the text of JSON decode errors. -/
def DMError.errText : DMError → String
  | .missingCredentials => "missing one or more credentials"
  | .couldNotParseArgument => "could not parse argument"
  | .transport msg => msg
  | .errorsNew msg => msg
  | .decodeFailure => ""

/-- The `Client` struct: credentials and connection configuration.
The injected `*http.Client` is passed separately as a `Transport`. -/
structure Client where
  AccountID : String
  Username : String
  Password : String
  DevID : String
  baseURL : String
  userAgent : String
deriving DecidableEq, Repr

/-- An outbound HTTP GET request: its URL and its User-Agent header. -/
structure HttpRequest where
  url : String
  userAgent : String
deriving DecidableEq, Repr

/-- An HTTP response: status code and (JSON) body. -/
structure HttpResponse where
  statusCode : Nat
  body : Json

/-- The injected HTTP client's `Do`: either a transport error or a response. -/
def Transport : Type := HttpRequest → Except String HttpResponse

/-- Observable effects of a call: issuing an HTTP request, or closing a
response body.  The source never calls `res.Body.Close()`. -/
inductive Event where
  | issue (req : HttpRequest) : Event
  | closeBody : Event

/-- Whether a trace contains a `closeBody` event. -/
def closesBody : List Event → Bool
  | [] => false
  | .closeBody :: _ => true
  | .issue _ :: rest => closesBody rest

/-- `New` constructs a new DMWeb Client: it fails with
`errorMissingCredentials` when any credential string is empty, and
otherwise fills in the default base URL and User-Agent. -/
def New (accountID username password developerID : String) : Except DMError Client :=
  if accountID = "" ∨ username = "" ∨ password = "" ∨ developerID = "" then
    .error .missingCredentials
  else
    .ok { AccountID := accountID, Username := username, Password := password,
          DevID := developerID, baseURL := DefaultBaseURL,
          userAgent := DefaultUserAgent }

/-- The `url.Values` holding the four credential parameters, as built at
the top of `buildURL`. -/
def Client.credValues (c : Client) : URLValues :=
  ((((∅ : URLValues).add "t2maccount" c.AccountID).add "t2musername"
      c.Username).add "t2mpassword" c.Password).add "t2mdevid" c.DevID

/-- The merged query values of `buildURL`: the four credential
parameters, then every extra parameter `Add`ed in turn (the Go `range`
order over the map is arbitrary, but `Add` keeps independent keys
independent and `Encode` sorts, so list order is immaterial). -/
def Client.queryValues (c : Client) (params : URLValues) : URLValues :=
  params.foldl (fun acc kv => kv.2.foldl (fun a val => URLValues.add a kv.1 val) acc)
    c.credValues

/-- `buildURL`: base URL, endpoint, `?`, and the encoded merged query. -/
def Client.buildURL (c : Client) (endpoint : String) (params : URLValues) : String :=
  c.baseURL ++ endpoint ++ "?" ++ URLValues.encode (c.queryValues params)

/-- The `http.Request` built by `Request` (GET, with the User-Agent header). -/
def Client.mkRequest (c : Client) (endpoint : String) (params : URLValues) : HttpRequest :=
  { url := c.buildURL endpoint params, userAgent := c.userAgent }

/-! ## JSON decoding (`encoding/json` behaviour on the repo's struct shapes)

`encoding/json` matches an object key against a field's tag or name,
preferring an exact match but accepting a case-insensitive one; a key
absent from the object leaves the field at its zero value; a JSON `null`
also leaves these field types at their zero values; a value of the wrong
shape is an error.  Decoding a number into an `int` field errors when the
number has a fractional part; into a `float64` field it always succeeds. -/

/-- Exact-match lookup among an object's fields (first occurrence). -/
def lookupExact : List (String × Json) → String → Option Json
  | [], _ => none
  | (k, v) :: rest, key => if k = key then some v else lookupExact rest key

/-- ASCII lower-casing of one character (`encoding/json` matches field
names case-insensitively; the keys involved here are all ASCII). -/
def lowerChar (ch : Char) : Char :=
  if 'A' ≤ ch ∧ ch ≤ 'Z' then Char.ofNat (ch.toNat + 32) else ch

/-- The case-folded key used for case-insensitive matching. -/
def foldKey (s : String) : List Char := s.toList.map lowerChar

/-- Case-insensitive lookup (first occurrence). -/
def lookupCI : List (String × Json) → String → Option Json
  | [], _ => none
  | (k, v) :: rest, key =>
    if foldKey k = foldKey key then some v else lookupCI rest key

/-- Field lookup, exact match preferred, else case-insensitive. -/
def lookupField (fields : List (String × Json)) (key : String) : Option Json :=
  match lookupExact fields key with
  | some v => some v
  | none => lookupCI fields key

/-- Decode a JSON value into a `bool` field. -/
def decBool : Json → Option Bool
  | .bool b => some b
  | .null => some false
  | _ => none

/-- Decode a JSON value into an `int` field: fails on a fractional number. -/
def decInt : Json → Option Int
  | .num q => if q.den = 1 then some q.num else none
  | .null => some 0
  | _ => none

/-- Decode a JSON value into a `float64` field: any number is accepted. -/
def decFloat : Json → Option ℚ
  | .num q => some q
  | .null => some 0
  | _ => none

/-- Decode a JSON value into a `string` field. -/
def decString : Json → Option String
  | .str s => some s
  | .null => some ""
  | _ => none

/-- Decode a JSON value into a `time.Time` field (shape only; the
RFC-3339 validation performed by `time.Time.UnmarshalJSON` is abstracted). -/
def decTime : Json → Option GoTime
  | .str s => some ⟨s⟩
  | .null => some GoTime.zero
  | _ => none

/-- Decode one struct field: an absent key leaves the zero value. -/
def decField (fields : List (String × Json)) (key : String)
    (dec : Json → Option α) (zeroVal : α) : Option α :=
  match lookupField fields key with
  | none => some zeroVal
  | some v => dec v

/-- Decode a JSON value into a slice field (`null` is the nil slice). -/
def decList (dec : Json → Option α) : Json → Option (List α)
  | .arr xs => xs.mapM dec
  | .null => some []
  | _ => none

/-! ## Response types (`types.go`) and their decoders -/

/-- `errorResponse`: the error envelope `{success, code, message}`. -/
structure errorResponse where
  Success : Bool
  Code : Int
  Message : String
deriving DecidableEq, Repr

/-- The zero `errorResponse`. -/
def errorResponse.zero : errorResponse := ⟨false, 0, ""⟩

/-- Decode an `errorResponse` (`var er errorResponse; dec.Decode(&er)`). -/
def decodeErrorResponse : Json → Option errorResponse
  | .obj fs => do
    let su ← decField fs "success" decBool false
    let co ← decField fs "code" decInt 0
    let me ← decField fs "message" decString ""
    pure ⟨su, co, me⟩
  | .null => some errorResponse.zero
  | _ => none

/-- `Tag`: an EWON tag (current value is `float64`). -/
structure Tag where
  ID : Int
  Name : String
  DataType : String
  Description : String
  AlarmHint : String
  Value : ℚ
  Quality : String
  EwonTagID : Int
deriving DecidableEq, Repr

/-- The zero `Tag`. -/
def Tag.zero : Tag := ⟨0, "", "", "", "", 0, "", 0⟩

/-- Decode a `Tag` (an element of `Tags = []*Tag`; a `null` element is a
nil pointer, modelled as the zero `Tag`). -/
def decodeTag : Json → Option Tag
  | .obj fs => do
    let i ← decField fs "id" decInt 0
    let n ← decField fs "name" decString ""
    let dt ← decField fs "dataType" decString ""
    let de ← decField fs "description" decString ""
    let ah ← decField fs "alarmHint" decString ""
    let v ← decField fs "value" decFloat 0
    let q ← decField fs "quality" decString ""
    let et ← decField fs "ewonTagId" decInt 0
    pure ⟨i, n, dt, de, ah, v, q, et⟩
  | .null => some Tag.zero
  | _ => none

/-- `Ewon`: an eWON device. -/
structure Ewon where
  ID : Int
  Name : String
  LastSynchroDate : GoTime
  Tags : List Tag
  TimeZone : String
deriving DecidableEq, Repr

/-- The zero `Ewon`. -/
def Ewon.zero : Ewon := ⟨0, "", GoTime.zero, [], ""⟩

/-- Decode an `Ewon`. -/
def decodeEwon : Json → Option Ewon
  | .obj fs => do
    let i ← decField fs "id" decInt 0
    let n ← decField fs "name" decString ""
    let ls ← decField fs "lastSynchroDate" decTime GoTime.zero
    let ts ← decField fs "tags" (decList decodeTag) []
    let tz ← decField fs "timeZone" decString ""
    pure ⟨i, n, ls, ts, tz⟩
  | .null => some Ewon.zero
  | _ => none

/-- One entry of `GetStatusResponse.Ewons`. -/
structure StatusEwon where
  ID : Int
  Name : String
  HistoryCount : Int
  FirstHistoryDate : GoTime
  LastHistoryDate : GoTime
deriving DecidableEq, Repr

/-- The zero `StatusEwon`. -/
def StatusEwon.zero : StatusEwon := ⟨0, "", 0, GoTime.zero, GoTime.zero⟩

/-- Decode a `StatusEwon`. -/
def decodeStatusEwon : Json → Option StatusEwon
  | .obj fs => do
    let i ← decField fs "id" decInt 0
    let n ← decField fs "name" decString ""
    let h ← decField fs "historyCount" decInt 0
    let f ← decField fs "firstHistoryDate" decTime GoTime.zero
    let l ← decField fs "lastHistoryDate" decTime GoTime.zero
    pure ⟨i, n, h, f, l⟩
  | .null => some StatusEwon.zero
  | _ => none

/-- `GetStatusResponse`: a status snapshot. -/
structure GetStatusResponse where
  HistoryCount : Int
  EwonsCount : Int
  Ewons : List StatusEwon
deriving DecidableEq, Repr

/-- The zero `GetStatusResponse`. -/
def GetStatusResponse.zero : GetStatusResponse := ⟨0, 0, []⟩

/-- Decode a `GetStatusResponse`. -/
def decodeGetStatusResponse : Json → Option GetStatusResponse
  | .obj fs => do
    let h ← decField fs "historyCount" decInt 0
    let e ← decField fs "ewonsCount" decInt 0
    let es ← decField fs "ewons" (decList decodeStatusEwon) []
    pure ⟨h, e, es⟩
  | .null => some GetStatusResponse.zero
  | _ => none

/-- The anonymous envelope decoded by `GetEwons`:
`struct { Success bool; Ewons Ewons }` (untagged: JSON keys are matched
to the field names case-insensitively).  `Ewons` is a slice of pointers;
`none` models the nil slice. -/
structure getEwonsEnvelope where
  Success : Bool
  Ewons : Option (List Ewon)
deriving DecidableEq, Repr

/-- Decode the `Ewons` field of the envelope (`null`/absent is nil). -/
def decEwonsSlice : Json → Option (Option (List Ewon))
  | .arr xs => (xs.mapM decodeEwon).map some
  | .null => some none
  | _ => none

/-- Decode the `GetEwons` envelope. -/
def decodeGetEwonsEnvelope : Json → Option getEwonsEnvelope
  | .obj fs => do
    let su ← decField fs "Success" decBool false
    let es ← decField fs "Ewons" decEwonsSlice none
    pure ⟨su, es⟩
  | .null => some ⟨false, none⟩
  | _ => none

/-- Best-effort decode of one struct field, mirroring `encoding/json`'s
documented behaviour on an `UnmarshalTypeError`: the mismatched field
is skipped (left at its zero value) and unmarshaling continues. -/
def bestEffortField (fields : List (String × Json)) (key : String)
    (dec : Json → Option α) (zeroVal : α) : α :=
  match lookupField fields key with
  | none => zeroVal
  | some v => (dec v).getD zeroVal

/-- Best-effort decode of a `Tag` (mismatched fields skipped). -/
def bestEffortTag : Json → Tag
  | .obj fs =>
    { ID := bestEffortField fs "id" decInt 0,
      Name := bestEffortField fs "name" decString "",
      DataType := bestEffortField fs "dataType" decString "",
      Description := bestEffortField fs "description" decString "",
      AlarmHint := bestEffortField fs "alarmHint" decString "",
      Value := bestEffortField fs "value" decFloat 0,
      Quality := bestEffortField fs "quality" decString "",
      EwonTagID := bestEffortField fs "ewonTagId" decInt 0 }
  | _ => Tag.zero

/-- Best-effort decode of an `Ewon` (mismatched fields skipped; a
non-array `tags` value is skipped, leaving the nil slice). -/
def bestEffortEwon : Json → Ewon
  | .obj fs =>
    { ID := bestEffortField fs "id" decInt 0,
      Name := bestEffortField fs "name" decString "",
      LastSynchroDate := bestEffortField fs "lastSynchroDate" decTime GoTime.zero,
      Tags := match lookupField fs "tags" with
        | some (.arr xs) => xs.map bestEffortTag
        | _ => [],
      TimeZone := bestEffortField fs "timeZone" decString "" }
  | _ => Ewon.zero

/-- Best-effort decode of the `GetEwons` envelope: the partially
decoded struct that Go's single `Decode(&es)` pass leaves behind when
it returns a type-mismatch error — `encoding/json` skips the offending
field or element and completes the rest, reporting the earliest error.
(The model factors Go's one pass into the strict decode above, which
supplies the error signal, and this pass, which supplies the value.) -/
def bestEffortGetEwonsEnvelope : Json → getEwonsEnvelope
  | .obj fs =>
    { Success := bestEffortField fs "Success" decBool false,
      Ewons := match lookupField fs "Ewons" with
        | some (.arr xs) => some (xs.map bestEffortEwon)
        | _ => none }
  | _ => ⟨false, none⟩

/-- One history sample of a `GetDataResponse` tag: `date`, `quality`
and an **`int`** `value` — there is no per-sample data-type field. -/
structure GetDataHistoryEntry where
  Date : GoTime
  Quality : String
  Value : Int
deriving DecidableEq, Repr

/-- The zero `GetDataHistoryEntry`. -/
def GetDataHistoryEntry.zero : GetDataHistoryEntry := ⟨GoTime.zero, "", 0⟩

/-- Decode a `GetDataHistoryEntry`. -/
def decodeGetDataHistoryEntry : Json → Option GetDataHistoryEntry
  | .obj fs => do
    let d ← decField fs "date" decTime GoTime.zero
    let q ← decField fs "quality" decString ""
    let v ← decField fs "value" decInt 0
    pure ⟨d, q, v⟩
  | .null => some GetDataHistoryEntry.zero
  | _ => none

/-- One tag of a `GetDataResponse` device: its current `value` is an
**`int`**, and it carries a tag-level `dataType` label. -/
structure GetDataTag where
  ID : Int
  Name : String
  DataType : String
  Description : String
  AlarmHint : String
  Value : Int
  Quality : String
  EwonTagID : Int
  History : List GetDataHistoryEntry
deriving DecidableEq, Repr

/-- The zero `GetDataTag`. -/
def GetDataTag.zero : GetDataTag := ⟨0, "", "", "", "", 0, "", 0, []⟩

/-- Decode a `GetDataTag`. -/
def decodeGetDataTag : Json → Option GetDataTag
  | .obj fs => do
    let i ← decField fs "id" decInt 0
    let n ← decField fs "name" decString ""
    let dt ← decField fs "dataType" decString ""
    let de ← decField fs "description" decString ""
    let ah ← decField fs "alarmHint" decString ""
    let v ← decField fs "value" decInt 0
    let q ← decField fs "quality" decString ""
    let et ← decField fs "ewonTagId" decInt 0
    let hs ← decField fs "history" (decList decodeGetDataHistoryEntry) []
    pure ⟨i, n, dt, de, ah, v, q, et, hs⟩
  | .null => some GetDataTag.zero
  | _ => none

/-- One device of a `GetDataResponse`. -/
structure GetDataEwon where
  ID : Int
  Name : String
  Tags : List GetDataTag
  LastSynchroDate : GoTime
  TimeZone : String
deriving DecidableEq, Repr

/-- The zero `GetDataEwon`. -/
def GetDataEwon.zero : GetDataEwon := ⟨0, "", [], GoTime.zero, ""⟩

/-- Decode a `GetDataEwon`. -/
def decodeGetDataEwon : Json → Option GetDataEwon
  | .obj fs => do
    let i ← decField fs "id" decInt 0
    let n ← decField fs "name" decString ""
    let ts ← decField fs "tags" (decList decodeGetDataTag) []
    let ls ← decField fs "lastSynchroDate" decTime GoTime.zero
    let tz ← decField fs "timeZone" decString ""
    pure ⟨i, n, ts, ls, tz⟩
  | .null => some GetDataEwon.zero
  | _ => none

/-- `GetDataResponse`: a successful `getdata` response. -/
structure GetDataResponse where
  Success : Bool
  MoreDataAvailable : Bool
  Ewons : List GetDataEwon
deriving DecidableEq, Repr

/-- The zero `GetDataResponse`. -/
def GetDataResponse.zero : GetDataResponse := ⟨false, false, []⟩

/-- Decode a `GetDataResponse`. -/
def decodeGetDataResponse : Json → Option GetDataResponse
  | .obj fs => do
    let su ← decField fs "success" decBool false
    let md ← decField fs "moreDataAvailable" decBool false
    let es ← decField fs "ewons" (decList decodeGetDataEwon) []
    pure ⟨su, md, es⟩
  | .null => some GetDataResponse.zero
  | _ => none

/-- One history sample of a `SyncResponse` tag: `date`, `dataType` and a
**`float64`** `value` — there is no per-sample quality field. -/
structure SyncHistoryEntry where
  Date : GoTime
  DataType : String
  Value : ℚ
deriving DecidableEq, Repr

/-- The zero `SyncHistoryEntry`. -/
def SyncHistoryEntry.zero : SyncHistoryEntry := ⟨GoTime.zero, "", 0⟩

/-- Decode a `SyncHistoryEntry`. -/
def decodeSyncHistoryEntry : Json → Option SyncHistoryEntry
  | .obj fs => do
    let d ← decField fs "date" decTime GoTime.zero
    let dt ← decField fs "dataType" decString ""
    let v ← decField fs "value" decFloat 0
    pure ⟨d, dt, v⟩
  | .null => some SyncHistoryEntry.zero
  | _ => none

/-- One tag of a `SyncResponse` device (`float64` current value). -/
structure SyncTag where
  ID : Int
  Name : String
  DataType : String
  Description : String
  AlarmHint : String
  Value : ℚ
  Quality : String
  EwonTagID : Int
  History : List SyncHistoryEntry
deriving DecidableEq, Repr

/-- The zero `SyncTag`. -/
def SyncTag.zero : SyncTag := ⟨0, "", "", "", "", 0, "", 0, []⟩

/-- Decode a `SyncTag`. -/
def decodeSyncTag : Json → Option SyncTag
  | .obj fs => do
    let i ← decField fs "id" decInt 0
    let n ← decField fs "name" decString ""
    let dt ← decField fs "dataType" decString ""
    let de ← decField fs "description" decString ""
    let ah ← decField fs "alarmHint" decString ""
    let v ← decField fs "value" decFloat 0
    let q ← decField fs "quality" decString ""
    let et ← decField fs "ewonTagId" decInt 0
    let hs ← decField fs "history" (decList decodeSyncHistoryEntry) []
    pure ⟨i, n, dt, de, ah, v, q, et, hs⟩
  | .null => some SyncTag.zero
  | _ => none

/-- One device of a `SyncResponse` (no time-zone field here). -/
structure SyncEwon where
  ID : Int
  Name : String
  Tags : List SyncTag
  LastSynchroDate : GoTime
deriving DecidableEq, Repr

/-- The zero `SyncEwon`. -/
def SyncEwon.zero : SyncEwon := ⟨0, "", [], GoTime.zero⟩

/-- Decode a `SyncEwon`. -/
def decodeSyncEwon : Json → Option SyncEwon
  | .obj fs => do
    let i ← decField fs "id" decInt 0
    let n ← decField fs "name" decString ""
    let ts ← decField fs "tags" (decList decodeSyncTag) []
    let ls ← decField fs "lastSynchroDate" decTime GoTime.zero
    pure ⟨i, n, ts, ls⟩
  | .null => some SyncEwon.zero
  | _ => none

/-- `SyncResponse`: a successful `syncdata` response. -/
structure SyncResponse where
  Success : Bool
  TransactionID : String
  MoreDataAvailable : Bool
  Ewons : List SyncEwon
deriving DecidableEq, Repr

/-- The zero `SyncResponse`. -/
def SyncResponse.zero : SyncResponse := ⟨false, "", false, []⟩

/-- Decode a `SyncResponse`. -/
def decodeSyncResponse : Json → Option SyncResponse
  | .obj fs => do
    let su ← decField fs "success" decBool false
    let ti ← decField fs "transactionId" decString ""
    let md ← decField fs "moreDataAvailable" decBool false
    let es ← decField fs "ewons" (decList decodeSyncEwon) []
    pure ⟨su, ti, md, es⟩
  | .null => some SyncResponse.zero
  | _ => none

/-! ## The request primitive and the typed operations (`dmweb.go`)

Each operation returns its event trace together with the Go return pair.
A Go `(*T, error)` pair is `Option T × Option DMError`: `none` in the
first component is a nil pointer (or nil slice for `GetEwons`), `none`
in the second is a nil error.  No path ever emits `Event.closeBody`,
because the source never closes a response body. -/

/-- `Request`: build the URL, set the User-Agent header, run the
transport; on a non-200 status decode the error envelope and fail with
`errors.New(er.Message)` (or with the decode error when the envelope
itself fails to decode); on 200 hand the live response to the caller. -/
def Client.Request (c : Client) (t : Transport) (endpoint : String)
    (params : URLValues) : List Event × Except DMError HttpResponse :=
  match t (c.mkRequest endpoint params) with
  | .error e => ([Event.issue (c.mkRequest endpoint params)], .error (.transport e))
  | .ok res =>
    if res.statusCode ≠ 200 then
      match decodeErrorResponse res.body with
      | none => ([Event.issue (c.mkRequest endpoint params)], .error .decodeFailure)
      | some er =>
        ([Event.issue (c.mkRequest endpoint params)], .error (.errorsNew er.Message))
    else
      ([Event.issue (c.mkRequest endpoint params)], .ok res)

/-- The decode tail every pointer-returning operation repeats after its
call to `Request` (`if err != nil { return nil, err }` followed by
`var s T; err = json.NewDecoder(res.Body).Decode(&s); return &s, err`):
a request error propagates with a nil pointer; on 200 the body is
decoded, and the (always non-nil) address of the local struct is
returned even when decoding fails — then holding the zero value in this
atomic-decode model. -/
def handleWith (dec : Json → Option α) (zeroVal : α) :
    List Event × Except DMError HttpResponse →
      List Event × Option α × Option DMError
  | (tr, .error e) => (tr, none, some e)
  | (tr, .ok res) =>
    match dec res.body with
    | some s => (tr, some s, none)
    | none => (tr, some zeroVal, some .decodeFailure)

/-- `GetStatus`: thin decode of a `getstatus` response. -/
def Client.GetStatus (c : Client) (t : Transport) :
    List Event × Option GetStatusResponse × Option DMError :=
  handleWith decodeGetStatusResponse GetStatusResponse.zero
    (c.Request t "getstatus" ∅)

/-- The tail of `GetEwons` (`if err != nil { return nil, err }` then
`err = Decode(&es); return es.Ewons, err`): decode the
`{Success, Ewons}` envelope and return only the `Ewons` slice,
discarding the success flag.  Go returns `es.Ewons` *alongside* a
decode error, and since `encoding/json` skips mismatched fields and
completes the rest, that slice is the best-effort partially decoded
slice, which may well be non-nil. -/
def handleEwons :
    List Event × Except DMError HttpResponse →
      List Event × Option (List Ewon) × Option DMError
  | (tr, .error e) => (tr, none, some e)
  | (tr, .ok res) =>
    match decodeGetEwonsEnvelope res.body with
    | some es => (tr, es.Ewons, none)
    | none => (tr, (bestEffortGetEwonsEnvelope res.body).Ewons, some .decodeFailure)

/-- `GetEwons`: list all eWONs via the `getewons` endpoint. -/
def Client.GetEwons (c : Client) (t : Transport) :
    List Event × Option (List Ewon) × Option DMError :=
  handleEwons (c.Request t "getewons" ∅)

/-- A value of Go's `interface{}` as passed to `getEwonByIdentifier`:
an `int`, a `string`, or anything else (the `default` case of the
type switch). -/
inductive GoValue where
  | int (i : Int) : GoValue
  | str (s : String) : GoValue
  | other : GoValue

/-- The query values built by `getEwonByIdentifier`'s type switch:
`none` is the `default` branch (unsupported argument kind);
`strconv.Itoa` is `toString` on `Int`. -/
def identifierParams (qp : String) : GoValue → Option URLValues
  | .int n => some (URLValues.add ∅ qp (toString n))
  | .str s => some (URLValues.add ∅ qp s)
  | .other => none

/-- `getEwonByIdentifier`: set the one query parameter from the
identifier's kind (returning `errorCouldNotParseArgument` before any
request on an unsupported kind), call the `getewon` endpoint and decode
a single `Ewon` at the top level. -/
def Client.getEwonByIdentifier (c : Client) (t : Transport) (qp : String)
    (i : GoValue) : List Event × Option Ewon × Option DMError :=
  match identifierParams qp i with
  | none => ([], none, some .couldNotParseArgument)
  | some qs => handleWith decodeEwon Ewon.zero (c.Request t "getewon" qs)

/-- `GetEwonByID`: lookup by integer id. -/
def Client.GetEwonByID (c : Client) (t : Transport) (id : Int) :
    List Event × Option Ewon × Option DMError :=
  c.getEwonByIdentifier t "id" (.int id)

/-- `GetEwonByName`: lookup by name. -/
def Client.GetEwonByName (c : Client) (t : Transport) (name : String) :
    List Event × Option Ewon × Option DMError :=
  c.getEwonByIdentifier t "name" (.str name)

/-- The query values built by `GetData` from its `map[string]string`
argument (modelled as an association list; map iteration order is
arbitrary in Go, but distinct keys never interact under `Add`). -/
def getDataParams (params : List (String × String)) : URLValues :=
  params.foldl (fun acc kv => URLValues.add acc kv.1 kv.2) ∅

/-- `GetData`: pass the filter parameters through verbatim and decode a
`GetDataResponse`. -/
def Client.GetData (c : Client) (t : Transport)
    (params : List (String × String)) :
    List Event × Option GetDataResponse × Option DMError :=
  handleWith decodeGetDataResponse GetDataResponse.zero
    (c.Request t "getdata" (getDataParams params))

/-- The query values built by `SyncData`: `lastTransactionId` only when
non-empty, `createTransaction=true` only when requested. -/
def syncParams (lastTransactionID : String) (createTransaction : Bool) : URLValues :=
  let qs : URLValues := ∅
  let qs := if lastTransactionID ≠ "" then
      URLValues.add qs "lastTransactionId" lastTransactionID else qs
  if createTransaction then URLValues.add qs "createTransaction" "true" else qs

/-- `SyncData`: incremental retrieval with the transaction-id cursor. -/
def Client.SyncData (c : Client) (t : Transport) (lastTransactionID : String)
    (createTransaction : Bool) :
    List Event × Option SyncResponse × Option DMError :=
  handleWith decodeSyncResponse SyncResponse.zero
    (c.Request t "syncdata" (syncParams lastTransactionID createTransaction))

/-- `FirstSyncData`: `SyncData("", true)`. -/
def Client.FirstSyncData (c : Client) (t : Transport) :
    List Event × Option SyncResponse × Option DMError :=
  c.SyncData t "" true

/-! ## Helper lemmas -/

/-- All values stored under a key across an association list
(the order in which `buildURL`'s loop appends them). -/
def flatGet (params : URLValues) (k : String) : List String :=
  params.flatMap fun kv => if kv.1 = k then kv.2 else []

theorem URLValues.get_add (v : URLValues) (k' val k : String) :
    URLValues.get (URLValues.add v k' val) k
      = if k' = k then URLValues.get v k ++ [val] else URLValues.get v k := by
  induction v with
  | nil =>
    simp only [URLValues.add, URLValues.get]
    split <;> rfl
  | cons hd tl ih =>
    obtain ⟨k'', vs⟩ := hd
    simp only [URLValues.add]
    by_cases h1 : k'' = k'
    · subst h1
      simp only [if_pos rfl, URLValues.get]
      by_cases h2 : k'' = k
      · simp [h2]
      · simp [h2]
    · rw [if_neg h1]
      simp only [URLValues.get]
      by_cases h2 : k'' = k
      · subst h2
        have h3 : ¬ k' = k'' := fun h => h1 h.symm
        simp [h3]
      · simp [h2, ih]

theorem URLValues.get_addMany (vs : List String) (acc : URLValues) (k' k : String) :
    URLValues.get (vs.foldl (fun a val => URLValues.add a k' val) acc) k
      = if k' = k then URLValues.get acc k ++ vs else URLValues.get acc k := by
  induction vs generalizing acc with
  | nil => split <;> simp
  | cons hd tl ih =>
    simp only [List.foldl_cons, ih, URLValues.get_add]
    split <;> simp

theorem URLValues.get_addAll (params : URLValues) (acc : URLValues) (k : String) :
    URLValues.get
        (params.foldl
          (fun acc kv => kv.2.foldl (fun a val => URLValues.add a kv.1 val) acc) acc) k
      = URLValues.get acc k ++ flatGet params k := by
  induction params generalizing acc with
  | nil => simp [flatGet]
  | cons hd tl ih =>
    obtain ⟨k', vs⟩ := hd
    simp only [List.foldl_cons, ih, URLValues.get_addMany, flatGet, List.flatMap_cons]
    by_cases h : k' = k
    · simp [h, flatGet]
    · simp [h, flatGet]

theorem Client.get_queryValues (c : Client) (params : URLValues) (k : String) :
    URLValues.get (c.queryValues params) k
      = URLValues.get c.credValues k ++ flatGet params k :=
  URLValues.get_addAll params c.credValues k

theorem Client.credValues_get_account (c : Client) :
    URLValues.get c.credValues "t2maccount" = [c.AccountID] := by
  simp [Client.credValues, URLValues.add, URLValues.get]

theorem Client.credValues_get_username (c : Client) :
    URLValues.get c.credValues "t2musername" = [c.Username] := by
  simp [Client.credValues, URLValues.add, URLValues.get]

theorem Client.credValues_get_password (c : Client) :
    URLValues.get c.credValues "t2mpassword" = [c.Password] := by
  simp [Client.credValues, URLValues.add, URLValues.get]

theorem Client.credValues_get_devid (c : Client) :
    URLValues.get c.credValues "t2mdevid" = [c.DevID] := by
  simp [Client.credValues, URLValues.add, URLValues.get]

theorem Client.Request_fst (c : Client) (t : Transport) (endpoint : String)
    (params : URLValues) :
    (c.Request t endpoint params).1 = [Event.issue (c.mkRequest endpoint params)] := by
  unfold Client.Request
  cases ht : t (c.mkRequest endpoint params) with
  | error e => rfl
  | ok res =>
    dsimp only
    by_cases hst : res.statusCode ≠ 200
    · rw [if_pos hst]
      cases hd : decodeErrorResponse res.body <;> rfl
    · rw [if_neg hst]

theorem Client.Request_snd_transport (c : Client) (t : Transport) (endpoint : String)
    (params : URLValues) (msg : String)
    (ht : t (c.mkRequest endpoint params) = .error msg) :
    (c.Request t endpoint params).2 = .error (.transport msg) := by
  unfold Client.Request
  rw [ht]

theorem Client.Request_snd_non200 (c : Client) (t : Transport) (endpoint : String)
    (params : URLValues) (res : HttpResponse)
    (ht : t (c.mkRequest endpoint params) = .ok res)
    (hst : res.statusCode ≠ 200) :
    (c.Request t endpoint params).2
      = match decodeErrorResponse res.body with
        | none => .error .decodeFailure
        | some er => .error (.errorsNew er.Message) := by
  unfold Client.Request
  rw [ht]
  dsimp only
  rw [if_pos hst]
  cases hd : decodeErrorResponse res.body <;> simp [hd]

theorem Client.Request_snd_ok (c : Client) (t : Transport) (endpoint : String)
    (params : URLValues) (res : HttpResponse)
    (ht : t (c.mkRequest endpoint params) = .ok res)
    (hst : res.statusCode = 200) :
    (c.Request t endpoint params).2 = .ok res := by
  unfold Client.Request
  rw [ht]
  dsimp only
  simp [hst]

theorem handleWith_fst (dec : Json → Option α) (zeroVal : α)
    (p : List Event × Except DMError HttpResponse) :
    (handleWith dec zeroVal p).1 = p.1 := by
  obtain ⟨tr, r⟩ := p
  cases r with
  | error e => rfl
  | ok res =>
    show (match dec res.body with
      | some s => (tr, some s, none)
      | none => (tr, some zeroVal, some DMError.decodeFailure)).1 = tr
    cases hd : dec res.body <;> simp [hd]

theorem handleWith_error (dec : Json → Option α) (zeroVal : α)
    (tr : List Event) (e : DMError) :
    (handleWith dec zeroVal (tr, .error e)).2 = (none, some e) := rfl

theorem handleWith_ok (dec : Json → Option α) (zeroVal : α)
    (tr : List Event) (res : HttpResponse) :
    (handleWith dec zeroVal (tr, .ok res)).2
      = match dec res.body with
        | some s => (some s, none)
        | none => (some zeroVal, some .decodeFailure) := by
  show (match dec res.body with
    | some s => (tr, some s, none)
    | none => (tr, some zeroVal, some DMError.decodeFailure)).2 = _
  cases hd : dec res.body <;> simp [hd]

theorem handleEwons_fst (p : List Event × Except DMError HttpResponse) :
    (handleEwons p).1 = p.1 := by
  obtain ⟨tr, r⟩ := p
  cases r with
  | error e => rfl
  | ok res =>
    show (match decodeGetEwonsEnvelope res.body with
      | some es => (tr, es.Ewons, none)
      | none => (tr, (bestEffortGetEwonsEnvelope res.body).Ewons,
          some DMError.decodeFailure)).1 = tr
    cases hd : decodeGetEwonsEnvelope res.body <;> simp [hd]

theorem handleWith_snd_error (dec : Json → Option α) (zeroVal : α)
    (p : List Event × Except DMError HttpResponse) (e : DMError)
    (h : p.2 = .error e) :
    (handleWith dec zeroVal p).2 = (none, some e) := by
  obtain ⟨tr, r⟩ := p
  cases r with
  | error e' =>
    injection h with h
    subst h
    rfl
  | ok res => simp at h

theorem handleWith_snd_ok (dec : Json → Option α) (zeroVal : α)
    (p : List Event × Except DMError HttpResponse) (res : HttpResponse)
    (h : p.2 = .ok res) :
    (handleWith dec zeroVal p).2
      = match dec res.body with
        | some s => (some s, none)
        | none => (some zeroVal, some .decodeFailure) := by
  obtain ⟨tr, r⟩ := p
  cases r with
  | error e' => simp at h
  | ok res' =>
    injection h with h
    subst h
    exact handleWith_ok dec zeroVal tr res'

theorem handleEwons_snd_error (p : List Event × Except DMError HttpResponse)
    (e : DMError) (h : p.2 = .error e) :
    (handleEwons p).2 = (none, some e) := by
  obtain ⟨tr, r⟩ := p
  cases r with
  | error e' =>
    injection h with h
    subst h
    rfl
  | ok res => simp at h

theorem handleEwons_snd_ok (p : List Event × Except DMError HttpResponse)
    (res : HttpResponse) (h : p.2 = .ok res) :
    (handleEwons p).2
      = match decodeGetEwonsEnvelope res.body with
        | some es => (es.Ewons, none)
        | none => ((bestEffortGetEwonsEnvelope res.body).Ewons, some .decodeFailure) := by
  obtain ⟨tr, r⟩ := p
  cases r with
  | error e' => simp at h
  | ok res' =>
    injection h with h
    subst h
    show (match decodeGetEwonsEnvelope res'.body with
      | some es => (tr, es.Ewons, none)
      | none => (tr, (bestEffortGetEwonsEnvelope res'.body).Ewons,
          some DMError.decodeFailure)).2 = _
    cases hd : decodeGetEwonsEnvelope res'.body <;> simp [hd]

theorem Client.GetStatus_def (c : Client) (t : Transport) :
    c.GetStatus t
      = handleWith decodeGetStatusResponse GetStatusResponse.zero
          (c.Request t "getstatus" ∅) := rfl

theorem Client.GetEwons_def (c : Client) (t : Transport) :
    c.GetEwons t = handleEwons (c.Request t "getewons" ∅) := rfl

theorem Client.GetEwonByID_def (c : Client) (t : Transport) (id : Int) :
    c.GetEwonByID t id
      = handleWith decodeEwon Ewon.zero
          (c.Request t "getewon" (URLValues.add ∅ "id" (toString id))) := rfl

theorem Client.GetEwonByName_def (c : Client) (t : Transport) (name : String) :
    c.GetEwonByName t name
      = handleWith decodeEwon Ewon.zero
          (c.Request t "getewon" (URLValues.add ∅ "name" name)) := rfl

theorem Client.GetData_def (c : Client) (t : Transport)
    (params : List (String × String)) :
    c.GetData t params
      = handleWith decodeGetDataResponse GetDataResponse.zero
          (c.Request t "getdata" (getDataParams params)) := rfl

theorem Client.SyncData_def (c : Client) (t : Transport) (ltid : String) (ct : Bool) :
    c.SyncData t ltid ct
      = handleWith decodeSyncResponse SyncResponse.zero
          (c.Request t "syncdata" (syncParams ltid ct)) := rfl

/-- A JSON error envelope `{success, code, message}` as the service
sends it on failure responses. -/
def envelopeJson (su : Bool) (code : Int) (msg : String) : Json :=
  Json.obj [("success", .bool su), ("code", .num code), ("message", .str msg)]

theorem decode_envelopeJson (su : Bool) (code : Int) (msg : String) :
    decodeErrorResponse (envelopeJson su code msg) = some ⟨su, code, msg⟩ := by
  simp [envelopeJson, decodeErrorResponse, decField, lookupField, lookupExact,
    lookupCI, decBool, decInt, decString, Rat.den_intCast, Rat.num_intCast]

/-- A concrete client used in the closed witnesses below. -/
def cW : Client :=
  { AccountID := "acc", Username := "user", Password := "pw", DevID := "dev",
    baseURL := DefaultBaseURL, userAgent := DefaultUserAgent }

/-! ## Claim theorems -/

/-- C3: `New` fails with the MissingCredentials error if and only if at
least one of accountID, username, password, developerID is empty; when
all four are non-empty it succeeds, the resulting client's base URL is
the documented default and its user agent the documented default, and
the four credentials are stored untouched (no other validation). -/
theorem C3_new_validates_only_nonempty (a u p d : String) :
    (New a u p d = .error .missingCredentials ↔ (a = "" ∨ u = "" ∨ p = "" ∨ d = ""))
    ∧ (¬(a = "" ∨ u = "" ∨ p = "" ∨ d = "") →
        New a u p d
          = .ok { AccountID := a, Username := u, Password := p, DevID := d,
                  baseURL := DefaultBaseURL, userAgent := DefaultUserAgent }) := by
  unfold New
  by_cases h : a = "" ∨ u = "" ∨ p = "" ∨ d = ""
  · rw [if_pos h]
    simp [h]
  · rw [if_neg h]
    simp [h]

/-- C3 witness: with all four credentials non-empty, construction
succeeds and yields the default base URL and user agent. -/
theorem C3_witness :
    ¬("acc" = "" ∨ "user" = "" ∨ "pw" = "" ∨ "dev" = "")
    ∧ New "acc" "user" "pw" "dev"
        = .ok { AccountID := "acc", Username := "user", Password := "pw",
                DevID := "dev", baseURL := DefaultBaseURL,
                userAgent := DefaultUserAgent } :=
  ⟨by decide, (C3_new_validates_only_nonempty "acc" "user" "pw" "dev").2 (by decide)⟩

/-- C8: in device lookup, exactly one of the `id`/`name` query
parameters is set, from the identifier's kind (`GetEwonByID` sets `id`
from the integer via `strconv.Itoa`, `GetEwonByName` sets `name` from
the string), and with an identifier that is neither an integer nor a
string the shared lookup returns `errorCouldNotParseArgument` with an
empty event trace — before issuing any network request. -/
theorem C8_lookup_parameter_kinds (c : Client) (t : Transport) (qp : String)
    (id : Int) (name : String) :
    identifierParams "id" (GoValue.int id) = some [("id", [toString id])]
    ∧ URLValues.get [("id", [toString id])] "id" = [toString id]
    ∧ URLValues.get [("id", [toString id])] "name" = []
    ∧ identifierParams "name" (GoValue.str name) = some [("name", [name])]
    ∧ URLValues.get [("name", [name])] "name" = [name]
    ∧ URLValues.get [("name", [name])] "id" = []
    ∧ c.getEwonByIdentifier t qp GoValue.other
        = ([], none, some .couldNotParseArgument)
    ∧ c.GetEwonByID t id = c.getEwonByIdentifier t "id" (GoValue.int id)
    ∧ c.GetEwonByName t name = c.getEwonByIdentifier t "name" (GoValue.str name) := by
  refine ⟨rfl, ?_, ?_, rfl, ?_, ?_, rfl, rfl, rfl⟩
  · simp [URLValues.get]
  · simp [URLValues.get]
  · simp [URLValues.get]
  · simp [URLValues.get]

/-- C7: `SyncData` sends the `lastTransactionId` parameter iff the
cursor string is non-empty (with that value), sends
`createTransaction=true` iff the flag is set, and `FirstSyncData()` is
exactly `SyncData("", true)`. -/
theorem C7_sync_parameters (c : Client) (t : Transport) (ltid : String) (ct : Bool) :
    URLValues.get (c.queryValues (syncParams ltid ct)) "lastTransactionId"
        = (if ltid = "" then [] else [ltid])
    ∧ URLValues.get (c.queryValues (syncParams ltid ct)) "createTransaction"
        = (if ct then ["true"] else [])
    ∧ (c.SyncData t ltid ct).1
        = [Event.issue ⟨c.buildURL "syncdata" (syncParams ltid ct), c.userAgent⟩]
    ∧ c.FirstSyncData t = c.SyncData t "" true := by
  refine ⟨?_, ?_, ?_, rfl⟩
  · rw [Client.get_queryValues]
    have hcred : URLValues.get c.credValues "lastTransactionId" = [] := by
      simp [Client.credValues, URLValues.add, URLValues.get]
    rw [hcred]
    by_cases h1 : ltid = ""
    · by_cases h2 : ct <;>
        simp [syncParams, h1, h2, flatGet, URLValues.add]
    · by_cases h2 : ct <;>
        simp [syncParams, h1, h2, flatGet, URLValues.add]
  · rw [Client.get_queryValues]
    have hcred : URLValues.get c.credValues "createTransaction" = [] := by
      simp [Client.credValues, URLValues.add, URLValues.get]
    rw [hcred]
    by_cases h1 : ltid = ""
    · by_cases h2 : ct <;>
        simp [syncParams, h1, h2, flatGet, URLValues.add]
    · by_cases h2 : ct <;>
        simp [syncParams, h1, h2, flatGet, URLValues.add]
  · rw [Client.SyncData_def, handleWith_fst, Client.Request_fst]
    rfl

/-- C6: contrary to the claimed resource discipline, no exit path of any
operation ever closes the response body: the event trace of the request
primitive and of every operation contains no `closeBody` event, because
the source never calls `res.Body.Close()`. -/
theorem C6_body_never_closed (c : Client) (t : Transport) (endpoint : String)
    (params : URLValues) (id : Int) (name : String)
    (ps : List (String × String)) (ltid : String) (ct : Bool) :
    closesBody (c.Request t endpoint params).1 = false
    ∧ closesBody (c.GetStatus t).1 = false
    ∧ closesBody (c.GetEwons t).1 = false
    ∧ closesBody (c.GetEwonByID t id).1 = false
    ∧ closesBody (c.GetEwonByName t name).1 = false
    ∧ closesBody (c.GetData t ps).1 = false
    ∧ closesBody (c.SyncData t ltid ct).1 = false := by
  refine ⟨?_, ?_, ?_, ?_, ?_, ?_, ?_⟩
  · rw [Client.Request_fst]; rfl
  · rw [Client.GetStatus_def, handleWith_fst, Client.Request_fst]; rfl
  · rw [Client.GetEwons_def, handleEwons_fst, Client.Request_fst]; rfl
  · rw [Client.GetEwonByID_def, handleWith_fst, Client.Request_fst]; rfl
  · rw [Client.GetEwonByName_def, handleWith_fst, Client.Request_fst]; rfl
  · rw [Client.GetData_def, handleWith_fst, Client.Request_fst]; rfl
  · rw [Client.SyncData_def, handleWith_fst, Client.Request_fst]; rfl

/-- C2: the URL built by the request primitive is
`baseURL + endpoint + "?" +` the encoded merged query values; each of
the four credential keys maps to the credential value followed by any
caller-supplied extra values for that key (appended, never
overwritten); and every request issued — by the primitive and by every
operation — carries the fixed user-agent header. -/
theorem C2_url_credentials_user_agent (c : Client) (t : Transport)
    (endpoint : String) (params : URLValues) (id : Int) (name : String)
    (ps : List (String × String)) (ltid : String) (ct : Bool) :
    c.buildURL endpoint params
        = c.baseURL ++ endpoint ++ "?" ++ URLValues.encode (c.queryValues params)
    ∧ URLValues.get (c.queryValues params) "t2maccount"
        = c.AccountID :: flatGet params "t2maccount"
    ∧ URLValues.get (c.queryValues params) "t2musername"
        = c.Username :: flatGet params "t2musername"
    ∧ URLValues.get (c.queryValues params) "t2mpassword"
        = c.Password :: flatGet params "t2mpassword"
    ∧ URLValues.get (c.queryValues params) "t2mdevid"
        = c.DevID :: flatGet params "t2mdevid"
    ∧ (c.Request t endpoint params).1
        = [Event.issue ⟨c.buildURL endpoint params, c.userAgent⟩]
    ∧ (∀ req, Event.issue req ∈ (c.GetStatus t).1 → req.userAgent = c.userAgent)
    ∧ (∀ req, Event.issue req ∈ (c.GetEwons t).1 → req.userAgent = c.userAgent)
    ∧ (∀ req, Event.issue req ∈ (c.GetEwonByID t id).1 → req.userAgent = c.userAgent)
    ∧ (∀ req, Event.issue req ∈ (c.GetEwonByName t name).1 → req.userAgent = c.userAgent)
    ∧ (∀ req, Event.issue req ∈ (c.GetData t ps).1 → req.userAgent = c.userAgent)
    ∧ (∀ req, Event.issue req ∈ (c.SyncData t ltid ct).1 → req.userAgent = c.userAgent) := by
  have hua : ∀ (endpoint' : String) (params' : URLValues) (req : HttpRequest),
      Event.issue req ∈ (c.Request t endpoint' params').1 →
        req.userAgent = c.userAgent := by
    intro endpoint' params' req h
    rw [Client.Request_fst] at h
    simp only [List.mem_singleton, Event.issue.injEq] at h
    subst h
    rfl
  refine ⟨rfl, ?_, ?_, ?_, ?_, ?_, ?_, ?_, ?_, ?_, ?_, ?_⟩
  · rw [Client.get_queryValues, Client.credValues_get_account]
    rfl
  · rw [Client.get_queryValues, Client.credValues_get_username]
    rfl
  · rw [Client.get_queryValues, Client.credValues_get_password]
    rfl
  · rw [Client.get_queryValues, Client.credValues_get_devid]
    rfl
  · rw [Client.Request_fst]
    rfl
  · intro req h
    rw [Client.GetStatus_def, handleWith_fst] at h
    exact hua _ _ req h
  · intro req h
    rw [Client.GetEwons_def, handleEwons_fst] at h
    exact hua _ _ req h
  · intro req h
    rw [Client.GetEwonByID_def, handleWith_fst] at h
    exact hua _ _ req h
  · intro req h
    rw [Client.GetEwonByName_def, handleWith_fst] at h
    exact hua _ _ req h
  · intro req h
    rw [Client.GetData_def, handleWith_fst] at h
    exact hua _ _ req h
  · intro req h
    rw [Client.SyncData_def, handleWith_fst] at h
    exact hua _ _ req h

/-- C2 witness: on a concrete client with an extra parameter whose key
collides with a credential key, the merged query keeps the credential
value first and appends the extra value. -/
theorem C2_witness :
    URLValues.get (cW.queryValues [("t2maccount", ["x"])]) "t2maccount"
      = ["acc", "x"] := by
  have h := (C2_url_credentials_user_agent cW (fun _ => .error "e") "getstatus"
    [("t2maccount", ["x"])] 0 "" [] "" false).2.1
  rw [h]
  rfl

/-- C1: for every response with a status other than 200 — regardless of
which endpoint or operation produced it — the request primitive decodes
the error envelope from the body; when the envelope decodes, every
operation fails with `errors.New` of the envelope's message, whose
error text equals that message; when the envelope itself fails to
decode, every operation fails with the decode error. -/
theorem C1_non200_envelope_message (c : Client) (res : HttpResponse) (id : Int)
    (name : String) (ps : List (String × String)) (ltid : String) (ct : Bool)
    (hst : res.statusCode ≠ 200) :
    (∀ er, decodeErrorResponse res.body = some er →
      ((c.GetStatus (fun _ => .ok res)).2.2 = some (.errorsNew er.Message)
       ∧ (c.GetEwons (fun _ => .ok res)).2.2 = some (.errorsNew er.Message)
       ∧ (c.GetEwonByID (fun _ => .ok res) id).2.2 = some (.errorsNew er.Message)
       ∧ (c.GetEwonByName (fun _ => .ok res) name).2.2 = some (.errorsNew er.Message)
       ∧ (c.GetData (fun _ => .ok res) ps).2.2 = some (.errorsNew er.Message)
       ∧ (c.SyncData (fun _ => .ok res) ltid ct).2.2 = some (.errorsNew er.Message)
       ∧ (DMError.errorsNew er.Message).errText = er.Message))
    ∧ (decodeErrorResponse res.body = none →
      ((c.GetStatus (fun _ => .ok res)).2.2 = some .decodeFailure
       ∧ (c.GetEwons (fun _ => .ok res)).2.2 = some .decodeFailure
       ∧ (c.GetEwonByID (fun _ => .ok res) id).2.2 = some .decodeFailure
       ∧ (c.GetEwonByName (fun _ => .ok res) name).2.2 = some .decodeFailure
       ∧ (c.GetData (fun _ => .ok res) ps).2.2 = some .decodeFailure
       ∧ (c.SyncData (fun _ => .ok res) ltid ct).2.2 = some .decodeFailure)) := by
  have hreq : ∀ (endpoint : String) (params : URLValues),
      (c.Request (fun _ => .ok res) endpoint params).2
        = match decodeErrorResponse res.body with
          | none => .error .decodeFailure
          | some er => .error (.errorsNew er.Message) :=
    fun endpoint params =>
      Client.Request_snd_non200 c (fun _ => .ok res) endpoint params res rfl hst
  constructor
  · intro er her
    have hr : ∀ (endpoint : String) (params : URLValues),
        (c.Request (fun _ => .ok res) endpoint params).2
          = .error (.errorsNew er.Message) := by
      intro endpoint params
      rw [hreq endpoint params, her]
    refine ⟨?_, ?_, ?_, ?_, ?_, ?_, rfl⟩
    · rw [Client.GetStatus_def,
        handleWith_snd_error _ _ _ _ (hr "getstatus" ∅)]
    · rw [Client.GetEwons_def,
        handleEwons_snd_error _ _ (hr "getewons" ∅)]
    · rw [Client.GetEwonByID_def,
        handleWith_snd_error _ _ _ _ (hr "getewon" _)]
    · rw [Client.GetEwonByName_def,
        handleWith_snd_error _ _ _ _ (hr "getewon" _)]
    · rw [Client.GetData_def,
        handleWith_snd_error _ _ _ _ (hr "getdata" _)]
    · rw [Client.SyncData_def,
        handleWith_snd_error _ _ _ _ (hr "syncdata" _)]
  · intro hnone
    have hr : ∀ (endpoint : String) (params : URLValues),
        (c.Request (fun _ => .ok res) endpoint params).2
          = .error .decodeFailure := by
      intro endpoint params
      rw [hreq endpoint params, hnone]
    refine ⟨?_, ?_, ?_, ?_, ?_, ?_⟩
    · rw [Client.GetStatus_def,
        handleWith_snd_error _ _ _ _ (hr "getstatus" ∅)]
    · rw [Client.GetEwons_def,
        handleEwons_snd_error _ _ (hr "getewons" ∅)]
    · rw [Client.GetEwonByID_def,
        handleWith_snd_error _ _ _ _ (hr "getewon" _)]
    · rw [Client.GetEwonByName_def,
        handleWith_snd_error _ _ _ _ (hr "getewon" _)]
    · rw [Client.GetData_def,
        handleWith_snd_error _ _ _ _ (hr "getdata" _)]
    · rw [Client.SyncData_def,
        handleWith_snd_error _ _ _ _ (hr "syncdata" _)]

/-- C1 witness: a 401 response carrying the envelope
`{"success":false,"code":401,"message":"Invalid credentials"}` makes a
concrete operation fail with error text exactly `Invalid credentials`. -/
theorem C1_witness :
    (401 : Nat) ≠ 200
    ∧ decodeErrorResponse (envelopeJson false 401 "Invalid credentials")
        = some ⟨false, 401, "Invalid credentials"⟩
    ∧ (cW.GetStatus (fun _ => .ok ⟨401, envelopeJson false 401 "Invalid credentials"⟩)).2.2
        = some (.errorsNew "Invalid credentials")
    ∧ (DMError.errorsNew "Invalid credentials").errText = "Invalid credentials" := by
  refine ⟨by decide, by rfl, ?_, rfl⟩
  exact (((C1_non200_envelope_message cW
    ⟨401, envelopeJson false 401 "Invalid credentials"⟩ 0 "" [] "" false
    (by decide)).1 ⟨false, 401, "Invalid credentials"⟩ (by rfl))).1

/-- C4 counterexample: two error envelopes that differ only in their
numeric code (401 versus 500) but share a message produce *identical*
request results, so the code is not preserved anywhere in the returned
error — it is not accessible programmatically. -/
theorem C4_counterexample :
    cW.Request (fun _ => .ok ⟨401, envelopeJson false 401 "Invalid credentials"⟩)
        "getstatus" ∅
      = cW.Request (fun _ => .ok ⟨401, envelopeJson false 500 "Invalid credentials"⟩)
          "getstatus" ∅
    ∧ (cW.Request (fun _ => .ok ⟨401, envelopeJson false 401 "Invalid credentials"⟩)
          "getstatus" ∅).2
        = .error (.errorsNew "Invalid credentials") := by
  constructor <;> rfl

/-- C4 amended: on a non-200 response with a decodable envelope, the
error returned is `errors.New` of the envelope's message — the message
becomes the error's user-visible text, but the numeric code is
discarded when the error is formed: the request result is independent
of the envelope's code. -/
theorem C4_amended_code_discarded (c : Client) (endpoint : String)
    (params : URLValues) (status : Nat) (hst : status ≠ 200) (su : Bool)
    (code code' : Int) (msg : String) :
    (c.Request (fun _ => .ok ⟨status, envelopeJson su code msg⟩) endpoint params).2
        = .error (.errorsNew msg)
    ∧ (DMError.errorsNew msg).errText = msg
    ∧ c.Request (fun _ => .ok ⟨status, envelopeJson su code msg⟩) endpoint params
        = c.Request (fun _ => .ok ⟨status, envelopeJson su code' msg⟩) endpoint params := by
  have hsnd : ∀ cd : Int,
      (c.Request (fun _ => .ok ⟨status, envelopeJson su cd msg⟩) endpoint params).2
        = .error (.errorsNew msg) := by
    intro cd
    have h := Client.Request_snd_non200 c
      (fun _ => .ok ⟨status, envelopeJson su cd msg⟩) endpoint params
      ⟨status, envelopeJson su cd msg⟩ rfl hst
    rw [decode_envelopeJson] at h
    exact h
  refine ⟨hsnd code, rfl, ?_⟩
  refine Prod.ext_iff.mpr ⟨?_, ?_⟩
  · rw [Client.Request_fst, Client.Request_fst]
  · rw [hsnd code, hsnd code']

/-- C4 amended witness: a concrete 401 envelope yields the message as
error text, and changing the code to 500 leaves the result unchanged. -/
theorem C4_amended_witness :
    (401 : Nat) ≠ 200
    ∧ (cW.Request (fun _ => .ok ⟨401, envelopeJson false 401 "m"⟩) "getdata" ∅).2
        = .error (.errorsNew "m")
    ∧ cW.Request (fun _ => .ok ⟨401, envelopeJson false 401 "m"⟩) "getdata" ∅
        = cW.Request (fun _ => .ok ⟨401, envelopeJson false 500 "m"⟩) "getdata" ∅ := by
  have h := C4_amended_code_discarded cW "getdata" ∅ 401 (by decide) false 401 500 "m"
  exact ⟨by decide, h.1, h.2.2⟩

/-- C5 counterexample: on a 200 response whose body is a JSON array
(not an object), `GetStatus` fails with a decode error and *still*
returns a non-nil result pointer alongside the error — a partial result
does accompany the failure. -/
theorem C5_counterexample :
    (cW.GetStatus (fun _ => .ok ⟨200, Json.arr []⟩)).2.2 = some DMError.decodeFailure
    ∧ (cW.GetStatus (fun _ => .ok ⟨200, Json.arr []⟩)).2.1
        = some GetStatusResponse.zero := by
  constructor <;> rfl

/-- C5 amended: when the request primitive fails, each operation
returns a nil result with the error; but when decoding a 200 body
fails, the operations still return their local result value alongside
the decode error: the pointer-returning operations (`GetStatus`,
`GetEwonByID`, `GetEwonByName`, `GetData`, `SyncData`) return the
non-nil pointer to the local struct (its zero value in this
atomic-decode model), and `GetEwons` returns the partially decoded
slice — possibly nil, possibly populated, since `encoding/json` skips
mismatched fields and completes the rest of the unmarshaling. -/
theorem C5_amended_partial_on_decode_failure (c : Client) (t : Transport)
    (e : DMError) (res : HttpResponse) (hok : res.statusCode = 200) :
    ((c.Request t "getstatus" ∅).2 = .error e → (c.GetStatus t).2 = (none, some e))
    ∧ ((c.Request t "getewons" ∅).2 = .error e → (c.GetEwons t).2 = (none, some e))
    ∧ (∀ id : Int,
        (c.Request t "getewon" (URLValues.add ∅ "id" (toString id))).2 = .error e →
          (c.GetEwonByID t id).2 = (none, some e))
    ∧ (∀ name : String,
        (c.Request t "getewon" (URLValues.add ∅ "name" name)).2 = .error e →
          (c.GetEwonByName t name).2 = (none, some e))
    ∧ (∀ ps, (c.Request t "getdata" (getDataParams ps)).2 = .error e →
        (c.GetData t ps).2 = (none, some e))
    ∧ (∀ ltid ct, (c.Request t "syncdata" (syncParams ltid ct)).2 = .error e →
        (c.SyncData t ltid ct).2 = (none, some e))
    ∧ (decodeGetStatusResponse res.body = none →
        (c.GetStatus (fun _ => .ok res)).2
          = (some GetStatusResponse.zero, some .decodeFailure))
    ∧ (decodeEwon res.body = none → ∀ id : Int,
        (c.GetEwonByID (fun _ => .ok res) id).2
          = (some Ewon.zero, some .decodeFailure))
    ∧ (decodeGetDataResponse res.body = none → ∀ ps,
        (c.GetData (fun _ => .ok res) ps).2
          = (some GetDataResponse.zero, some .decodeFailure))
    ∧ (decodeSyncResponse res.body = none → ∀ ltid ct,
        (c.SyncData (fun _ => .ok res) ltid ct).2
          = (some SyncResponse.zero, some .decodeFailure))
    ∧ (decodeGetEwonsEnvelope res.body = none →
        (c.GetEwons (fun _ => .ok res)).2
          = ((bestEffortGetEwonsEnvelope res.body).Ewons, some .decodeFailure)) := by
  have hreq : ∀ (endpoint : String) (params : URLValues),
      (c.Request (fun _ => .ok res) endpoint params).2 = .ok res :=
    fun endpoint params =>
      Client.Request_snd_ok c (fun _ => .ok res) endpoint params res rfl hok
  refine ⟨?_, ?_, ?_, ?_, ?_, ?_, ?_, ?_, ?_, ?_, ?_⟩
  · intro h
    rw [Client.GetStatus_def, handleWith_snd_error _ _ _ _ h]
  · intro h
    rw [Client.GetEwons_def, handleEwons_snd_error _ _ h]
  · intro id h
    rw [Client.GetEwonByID_def, handleWith_snd_error _ _ _ _ h]
  · intro name h
    rw [Client.GetEwonByName_def, handleWith_snd_error _ _ _ _ h]
  · intro ps h
    rw [Client.GetData_def, handleWith_snd_error _ _ _ _ h]
  · intro ltid ct h
    rw [Client.SyncData_def, handleWith_snd_error _ _ _ _ h]
  · intro hd
    rw [Client.GetStatus_def, handleWith_snd_ok _ _ _ res (hreq "getstatus" ∅), hd]
  · intro hd id
    rw [Client.GetEwonByID_def, handleWith_snd_ok _ _ _ res (hreq "getewon" _), hd]
  · intro hd ps
    rw [Client.GetData_def, handleWith_snd_ok _ _ _ res (hreq "getdata" _), hd]
  · intro hd ltid ct
    rw [Client.SyncData_def, handleWith_snd_ok _ _ _ res (hreq "syncdata" _), hd]
  · intro hd
    rw [Client.GetEwons_def, handleEwons_snd_ok _ res (hreq "getewons" ∅), hd]

/-- C5 amended witness: on a concrete 200 response with a non-object
body, `GetStatus` returns the non-nil zero struct alongside the decode
error; and on a concrete 200 response whose `success` field is a
number but whose `ewons` array is well-formed, `GetEwons` returns a
*non-nil, populated* slice alongside the decode error. -/
theorem C5_amended_witness :
    (200 : Nat) = 200
    ∧ decodeGetStatusResponse (Json.arr []) = none
    ∧ (cW.GetStatus (fun _ => .ok ⟨200, Json.arr []⟩)).2
        = (some GetStatusResponse.zero, some .decodeFailure)
    ∧ decodeGetEwonsEnvelope (Json.obj [("success", Json.num ((1 : Int) : ℚ)),
        ("ewons", Json.arr [Json.obj [("id", Json.num ((5 : Int) : ℚ))]])]) = none
    ∧ (cW.GetEwons (fun _ => .ok ⟨200,
          Json.obj [("success", Json.num ((1 : Int) : ℚ)),
            ("ewons", Json.arr [Json.obj [("id", Json.num ((5 : Int) : ℚ))]])]⟩)).2
        = (some [⟨5, "", GoTime.zero, [], ""⟩], some .decodeFailure) := by
  refine ⟨rfl, rfl, ?_, rfl, ?_⟩
  · exact (C5_amended_partial_on_decode_failure cW
      (fun _ => .ok ⟨200, Json.arr []⟩) DMError.decodeFailure
      ⟨200, Json.arr []⟩ rfl).2.2.2.2.2.2.1 rfl
  · have h := (C5_amended_partial_on_decode_failure cW
      (fun _ => .ok ⟨200, Json.obj [("success", Json.num ((1 : Int) : ℚ)),
        ("ewons", Json.arr [Json.obj [("id", Json.num ((5 : Int) : ℚ))]])]⟩)
      DMError.decodeFailure
      ⟨200, Json.obj [("success", Json.num ((1 : Int) : ℚ)),
        ("ewons", Json.arr [Json.obj [("id", Json.num ((5 : Int) : ℚ))]])]⟩
      rfl).2.2.2.2.2.2.2.2.2.2 rfl
    exact h.trans rfl

/-- An integral JSON number. -/
def jint (n : Int) : Json := .num (n : ℚ)

/-- The fractional number 1.5 (= 3/2), built as an explicit reduced
fraction so that decoding fixtures containing it evaluates by
definitional unfolding. -/
def threeHalves : ℚ := ⟨3, 2, by decide, by decide⟩

theorem threeHalves_eq : threeHalves = 1.5 := by
  rw [← Rat.num_div_den threeHalves]
  show ((3 : ℤ) : ℚ) / ((2 : ℕ) : ℚ) = 1.5
  norm_num

/-- C9 counterexample: decoded history entries do *not* carry both a
quality and a data-type label.  A `getdata` history entry ignores the
`dataType` field entirely (two bodies differing only there decode to
the same entry, which records only date, quality and value); a
`syncdata` history entry ignores the `quality` field entirely (two
bodies differing only there decode to the same entry, which records
only date, data-type and value). -/
theorem C9_counterexample :
    decodeGetDataHistoryEntry (Json.obj [("date", .str "2020-01-01T00:00:00Z"),
        ("dataType", .str "Int"), ("quality", .str "good"), ("value", jint 1)])
      = decodeGetDataHistoryEntry (Json.obj [("date", .str "2020-01-01T00:00:00Z"),
          ("dataType", .str "Bool"), ("quality", .str "good"), ("value", jint 1)])
    ∧ decodeGetDataHistoryEntry (Json.obj [("date", .str "2020-01-01T00:00:00Z"),
        ("dataType", .str "Int"), ("quality", .str "good"), ("value", jint 1)])
      = some ⟨⟨"2020-01-01T00:00:00Z"⟩, "good", 1⟩
    ∧ decodeSyncHistoryEntry (Json.obj [("date", .str "2020-01-01T00:00:00Z"),
        ("dataType", .str "Int"), ("quality", .str "good"), ("value", jint 1)])
      = decodeSyncHistoryEntry (Json.obj [("date", .str "2020-01-01T00:00:00Z"),
          ("dataType", .str "Int"), ("quality", .str "bad"), ("value", jint 1)])
    ∧ decodeSyncHistoryEntry (Json.obj [("date", .str "2020-01-01T00:00:00Z"),
        ("dataType", .str "Int"), ("quality", .str "good"), ("value", jint 1)])
      = some ⟨⟨"2020-01-01T00:00:00Z"⟩, "Int", ((1 : Int) : ℚ)⟩ :=
  ⟨rfl, rfl, rfl, rfl⟩

/-- C9 amended: a `getdata` history entry carries a per-sample quality
label (but no data-type label), a `syncdata` history entry carries a
per-sample data-type label (but no quality label), and entries whose
quality or date fields are absent from the JSON decode to their
zero/empty equivalents (empty quality, zero date) rather than failing. -/
theorem C9_amended_history_labels (d q dt : String) (n : Int) (x : ℚ) :
    decodeGetDataHistoryEntry
        (Json.obj [("date", .str d), ("quality", .str q), ("value", .num (n : ℚ))])
      = some ⟨⟨d⟩, q, n⟩
    ∧ decodeGetDataHistoryEntry (Json.obj [("value", .num (n : ℚ))])
      = some ⟨GoTime.zero, "", n⟩
    ∧ decodeSyncHistoryEntry
        (Json.obj [("date", .str d), ("dataType", .str dt), ("value", .num x)])
      = some ⟨⟨d⟩, dt, x⟩
    ∧ decodeSyncHistoryEntry (Json.obj [("value", .num x)])
      = some ⟨GoTime.zero, "", x⟩ :=
  ⟨rfl, rfl, rfl, rfl⟩

/-- A 200-response body whose tag value and history-sample value are
the fractional number 1.5: decodable as a `SyncResponse` (float
fields), not as a `GetDataResponse` (int fields). -/
def fracBody : Json :=
  Json.obj [("success", .bool true), ("transactionId", .str "t1"),
    ("moreDataAvailable", .bool false),
    ("ewons", .arr [Json.obj [("id", jint 1), ("name", .str "e1"),
      ("lastSynchroDate", .str "2020-01-01T00:00:00Z"), ("timeZone", .str "UTC"),
      ("tags", .arr [Json.obj [("id", jint 2), ("name", .str "tag1"),
        ("dataType", .str "Float"), ("description", .str ""),
        ("alarmHint", .str ""), ("value", .num threeHalves),
        ("quality", .str "good"), ("ewonTagId", jint 3),
        ("history", .arr [Json.obj [("date", .str "2020-01-01T00:00:00Z"),
          ("dataType", .str "Float"), ("quality", .str "good"),
          ("value", .num threeHalves)]])]])]])]

/-- C10: on a 200 response whose tag value and history value are the
fractional number 1.5 (= 3/2), `GetData` fails with a decode error
(its response type uses `int` value fields), while `SyncData` decodes
the same body successfully into its `float64` value fields. -/
theorem C10_getdata_int_syncdata_float :
    (cW.GetData (fun _ => .ok ⟨200, fracBody⟩) []).2
      = (some GetDataResponse.zero, some DMError.decodeFailure)
    ∧ (cW.SyncData (fun _ => .ok ⟨200, fracBody⟩) "" false).2
      = (some ⟨true, "t1", false,
          [⟨1, "e1",
            [⟨2, "tag1", "Float", "", "", threeHalves, "good", 3,
              [⟨⟨"2020-01-01T00:00:00Z"⟩, "Float", threeHalves⟩]⟩],
            ⟨"2020-01-01T00:00:00Z"⟩⟩]⟩, none)
    ∧ threeHalves = 1.5 :=
  ⟨rfl, rfl, threeHalves_eq⟩

end Dmweb
